import Mathlib

/-!
Verification development for the channel-forwarding userbot (`forwarder.py`).

The file shallowly embeds the three stateful/algorithmic cores of the
program:

* the price-rewriting pipeline `_convert_prices` with its helper
  `_amount_to_uzs` (regex passes are embedded as direct left-to-right
  scanners replicating the Python `re.sub` semantics of the concrete
  patterns, including greedy backtracking and lookaround behaviour;
  character classes are the ASCII fragments of the Python classes);
* the album aggregation handlers `album_handler`,
  `album_caption_edited_handler`, the single-message `forward_handler`
  and the `control_handler` gate toggling, as a step function on the
  shared state (`FORWARD_ENABLED`, `PROCESSED_ALBUM_IDS`,
  `PENDING_ALBUMS`);
* the rate refresher `_update_usd_rate_once` over an abstracted fetch
  outcome.

The exchange rate is modelled as a rational number (`ℚ`) rather than a
binary float; `pyRound` replicates Python's round-half-to-even on that
rational value.
-/

namespace Forwarder

/-- ASCII fragment of the Python regex class `\d`. -/
def isDigitPy (c : Char) : Bool := c.isDigit

/-- ASCII fragment of the Python regex class `\s` (and of `str.isspace`). -/
def isSpacePy (c : Char) : Bool :=
  c = ' ' || c = '\t' || c = '\n' || c = '\r' || c = '\x0b' || c = '\x0c'

/-- The character class `[\d\s_.,]` appearing in passes 1 and 2. -/
def isAmountChar (c : Char) : Bool :=
  isDigitPy c || isSpacePy c || c = '_' || c = '.' || c = ','

/-- The separator class `[ _.,]` of the grouped-number pass. -/
def isSep3 (c : Char) : Bool :=
  c = ' ' || c = '_' || c = '.' || c = ','

/-- Decimal digits of a natural number, most significant first (auxiliary). -/
def natToDigitsAux : Nat → Nat → List Char
  | 0, _ => []
  | fuel + 1, n =>
    if n = 0 then [] else natToDigitsAux fuel (n / 10) ++ [Char.ofNat (48 + n % 10)]

/-- Decimal digits of a natural number, most significant first. -/
def natDigits (n : Nat) : List Char :=
  if n = 0 then ['0'] else natToDigitsAux (n + 1) n

/-- Insert a space after every three characters of a reversed digit list:
the core of the `f"{uzs:,}".replace(",", " ")` rendering. -/
def chunk3 : List Char → List Char
  | a :: b :: c :: d :: rest => a :: b :: c :: ' ' :: chunk3 (d :: rest)
  | l => l

/-- Thousands-grouped rendering of an integer with spaces as separators,
matching `f"{z:,}".replace(",", " ")`. -/
def intGrouped (z : ℤ) : List Char :=
  if z < 0 then '-' :: (chunk3 (natDigits z.natAbs).reverse).reverse
  else (chunk3 (natDigits z.natAbs).reverse).reverse

/-- Python's `round` (half to even) of the fraction `a / b`, `b > 0`,
expressed with integer arithmetic: `f` is the floor, `r2` twice the
remainder of `a / b` scaled by `b`. -/
def pyRoundFrac (a b : ℤ) : ℤ :=
  let f := a.fdiv b
  let r2 := 2 * (a - f * b)
  if r2 < b then f
  else if b < r2 then f + 1
  else if f % 2 = 0 then f else f + 1

/-- `round(amount * rate)` of the source, with the product of the natural
`amount` and the rational `rate` formed on numerator and denominator (so
the rounding is of the exact rational product; the source rounds the
binary-float product, which agrees on all exactly representable cases). -/
def pyRoundMul (n : Nat) (rate : ℚ) : ℤ :=
  pyRoundFrac ((n : ℤ) * rate.num) (rate.den : ℤ)

/-- Digits-to-number parse (`int(digits_only)`). -/
def digitsToNat (l : List Char) : Nat :=
  l.foldl (fun a c => a * 10 + (c.toNat - 48)) 0

/-- `_amount_to_uzs` from `forwarder.py`: strips `' '` and `'_'`, then
`','` and `'.'`, checks the remainder is non-empty and all digits,
multiplies by the rate, rounds, and renders space-grouped. -/
def _amount_to_uzs (rate : ℚ) (amount : List Char) : Option (List Char) :=
  let raw := amount.filter (fun c => !(c = ' ' || c = '_'))
  if raw = [] then none
  else
    let digitsOnly := raw.filter (fun c => !(c = ',' || c = '.'))
    if digitsOnly = [] || !(digitsOnly.all isDigitPy) then none
    else
      let n := digitsToNat digitsOnly
      let uzs : ℤ := pyRoundMul n rate
      some (intGrouped uzs)

/-- Pass 1: `re.sub(r"\$\s*(?P<amount>\d[\d\s_.,]*)", amount + "$", text)`.
A match is a literal `$`, a maximal whitespace run, then a maximal
`[\d\s_.,]` run starting with a digit; the replacement moves the `$`
behind the amount. Fuel bounds the scan (the remaining suffix shrinks at
every step, so initial length is always enough fuel). -/
def sub1 : Nat → List Char → List Char
  | 0, rest => rest
  | _ + 1, [] => []
  | fuel + 1, c :: cs =>
    if c = '$' then
      let ws := cs.takeWhile isSpacePy
      let after := cs.drop ws.length
      match after.head? with
      | some d =>
        if isDigitPy d then
          let amt := after.takeWhile isAmountChar
          amt ++ '$' :: sub1 fuel (after.drop amt.length)
        else c :: sub1 fuel cs
      | none => c :: sub1 fuel cs
    else c :: sub1 fuel cs

/-- Pass 2: `re.sub(r"(?P<amount>\d[\d\s_.,]*)\s*\$", convert_trailing_dollar, text)`.
Since whitespace belongs to the amount class, the greedy match resolves
to: maximal `[\d\s_.,]` run starting with a digit, immediately followed
by `$`; the amount group is that run. On a parse failure the original
match is kept. -/
def sub2 (r : ℚ) : Nat → List Char → List Char
  | 0, rest => rest
  | _ + 1, [] => []
  | fuel + 1, c :: cs =>
    if isDigitPy c then
      let rn := (c :: cs).takeWhile isAmountChar
      let after := (c :: cs).drop rn.length
      match after.head? with
      | some d2 =>
        if d2 = '$' then
          (match _amount_to_uzs r rn with
           | some u => u ++ ' ' :: ['U', 'Z', 'S']
           | none => rn ++ ['$']) ++ sub2 r fuel after.tail
        else c :: sub2 r fuel cs
      | none => c :: sub2 r fuel cs
    else c :: sub2 r fuel cs

/-- Does the suffix start (after a maximal whitespace run) with one of the
alternatives `UZS|usd|USD|\$`?  Inner content of the negative lookahead
of passes 3 and 4. -/
def startsCurrency : List Char → Bool
  | 'U' :: 'Z' :: 'S' :: _ => true
  | 'u' :: 's' :: 'd' :: _ => true
  | 'U' :: 'S' :: 'D' :: _ => true
  | '$' :: _ => true
  | _ => false

/-- The negative lookahead `(?!\s*(?:UZS|usd|USD|\$))`. -/
def negLook (l : List Char) : Bool := ! startsCurrency (l.dropWhile isSpacePy)

/-- `_has_plus_before`: walking left from the match start over whitespace,
is the first non-space character a `+`?  `prevRev` is the already scanned
part of the subject string, in reverse. -/
def hasPlusBefore (prevRev : List Char) : Bool :=
  match prevRev.dropWhile isSpacePy with
  | c :: _ => c = '+'
  | [] => false

/-- Maximal repetition count of `(?:[ _.,]\d{3})` at the given suffix. -/
def maxReps : List Char → Nat
  | s :: d1 :: d2 :: d3 :: rest =>
    if isSep3 s && isDigitPy d1 && isDigitPy d2 && isDigitPy d3 then maxReps rest + 1
    else 0
  | _ => 0

/-- Greedy backtracking over the repetition count of pass 3: the largest
`k ≥ 1` whose end position satisfies the negative lookahead. `t` is the
suffix after the leading digit block. -/
def findK (t : List Char) : Nat → Option Nat
  | 0 => none
  | k + 1 => if negLook (t.drop (4 * (k + 1))) then some (k + 1) else findK t k

/-- Are the first `a` characters present and all digits? -/
def leadingDigits (a : Nat) (l : List Char) : Bool :=
  (l.take a).length = a && (l.take a).all isDigitPy

/-- One backtracking alternative of pass 3 with a fixed count `a` for
`\d{1,3}`: returns the total match length on success. -/
def try3A (rest : List Char) (a : Nat) : Option Nat :=
  if leadingDigits a rest then
    let t := rest.drop a
    match findK t (maxReps t) with
    | some k => some (a + 4 * k)
    | none => none
  else none

/-- Pass-3 match attempt at a position: lookbehind `(?<!\+)`, then the
greedy order `\d{3}`, `\d{2}`, `\d{1}` for the leading digit block. -/
def try3 (prevRev rest : List Char) : Option Nat :=
  if prevRev.head? = some '+' then none
  else
    match try3A rest 3 with
    | some n => some n
    | none =>
      match try3A rest 2 with
      | some n => some n
      | none => try3A rest 1

/-- Pass 3: `re.sub` with
`(?<!\+)(?P<amount>\d{1,3}(?:[ _.,]\d{3})+)(?!\s*(?:UZS|usd|USD|\$))`
and the `convert_plain_grouped` callback (which additionally skips a
match preceded, over whitespace, by `+`). -/
def sub3 (r : ℚ) : Nat → List Char → List Char → List Char
  | 0, _, rest => rest
  | _ + 1, _, [] => []
  | fuel + 1, prevRev, c :: cs =>
    match try3 prevRev (c :: cs) with
    | some n =>
      let matched := (c :: cs).take n
      let restAfter := (c :: cs).drop n
      let rep :=
        if hasPlusBefore prevRev then matched
        else
          match _amount_to_uzs r matched with
          | some u => u ++ ' ' :: ['U', 'Z', 'S']
          | none => matched
      rep ++ sub3 r fuel (matched.reverse ++ prevRev) restAfter
    | none => c :: sub3 r fuel (c :: prevRev) cs

/-- Greedy backtracking over the digit-run length of pass 4: largest
`l ≥ 5` within the run whose end position satisfies the lookahead. -/
def findL (rest : List Char) : Nat → Option Nat
  | 0 => none
  | l + 1 =>
    if l + 1 < 5 then none
    else if negLook (rest.drop (l + 1)) then some (l + 1)
    else findL rest l

/-- Pass-4 match attempt: lookbehind `(?<!\+)`, then `\d{5,}` greedy with
the negative lookahead. -/
def try4 (prevRev rest : List Char) : Option Nat :=
  if prevRev.head? = some '+' then none
  else findL rest (rest.takeWhile isDigitPy).length

/-- Pass 4: `re.sub` with
`(?<!\+)(?P<amount>\d{5,})(?!\s*(?:UZS|usd|USD|\$))` and the
`convert_plain_big` callback. -/
def sub4 (r : ℚ) : Nat → List Char → List Char → List Char
  | 0, _, rest => rest
  | _ + 1, _, [] => []
  | fuel + 1, prevRev, c :: cs =>
    match try4 prevRev (c :: cs) with
    | some n =>
      let matched := (c :: cs).take n
      let restAfter := (c :: cs).drop n
      let rep :=
        if hasPlusBefore prevRev then matched
        else
          match _amount_to_uzs r matched with
          | some u => u ++ ' ' :: ['U', 'Z', 'S']
          | none => matched
      rep ++ sub4 r fuel (matched.reverse ++ prevRev) restAfter
    | none => c :: sub4 r fuel (c :: prevRev) cs

/-- Pass 1 on a whole string (fuel = length suffices: the unscanned suffix
shrinks at every step). -/
def pass1 (t : List Char) : List Char := sub1 t.length t

/-- Pass 2 on a whole string. -/
def pass2 (r : ℚ) (t : List Char) : List Char := sub2 r t.length t

/-- Pass 3 on a whole string. -/
def pass3 (r : ℚ) (t : List Char) : List Char := sub3 r t.length [] t

/-- Pass 4 on a whole string. -/
def pass4 (r : ℚ) (t : List Char) : List Char := sub4 r t.length [] t

/-- `_convert_prices` from `forwarder.py`: identity on empty text or an
absent rate; otherwise pass 1 (normalise `$400` to `400$`), pass 2
(convert marker-suffixed amounts) and, only when pass 2 changed nothing,
pass 3 (grouped bare numbers) then pass 4 (ungrouped large numbers). -/
def _convert_prices (rate : Option ℚ) (text : String) : String :=
  if text = "" then text
  else
    match rate with
    | none => text
    | some r =>
      let t1 := pass1 text.data
      let t2 := pass2 r t1
      if t2 ≠ t1 then ⟨t2⟩
      else ⟨pass4 r (pass3 r t2)⟩

/-- Outcome of the single HTTP fetch of `_update_usd_rate_once`, abstracted
over the external quote collaborator: `failure` covers a transport error
or a JSON-decode error raised inside the first `try` block; `success`
carries the HTTP status and the `quotes["USDUZS"]` field (`none` =
missing, `some none` = present but not parseable as a number,
`some (some v)` = numeric value `v`). -/
inductive FetchOutcome where
  | failure
  | success (status : Nat) (usduzs : Option (Option ℚ))
deriving DecidableEq

/-- `_update_usd_rate_once` from `forwarder.py`, as a function from the
current rate and the fetch outcome to the new rate.  Every failure path
in the source is a caught exception or an early `return` that leaves
`USD_TO_UZS_RATE` untouched; the embedding is a total function, which is
exactly the "never raises" contract. -/
def _update_usd_rate_once (rate : Option ℚ) (f : FetchOutcome) : Option ℚ :=
  match f with
  | .failure => rate
  | .success status q =>
    if status ≠ 200 then rate
    else
      match q with
      | none => rate
      | some none => rate
      | some (some v) => some v

/-- Is the fetch outcome one of the error cases named by the spec
(transport error, non-200 status, missing field, non-numeric field)? -/
def isErrorOutcome : FetchOutcome → Bool
  | .failure => true
  | .success status q => status ≠ 200 || q = none || q = some none

/-- One message of an album batch (`event.messages` entry): a service
action flag, an optional media reference, and its text. -/
structure AlbumMember where
  is_service : Bool
  media : Option Nat
  message : String
deriving DecidableEq

/-- The inbound events the four handlers react to. -/
inductive BotEvent where
  | album (grouped_id : Option Nat) (messages : List AlbumMember)
  | edited (grouped_id : Option Nat) (message : String) (is_service : Bool)
  | newMessage (grouped_id : Option Nat) (message : String) (media : Option Nat)
      (is_service : Bool)
  | control (message : String) (is_private : Bool) (is_out : Bool)
deriving DecidableEq

/-- Outbound calls to the destination: `client.send_file` (with the group
ID that triggered it, for album sends) and `client.send_message`. -/
inductive Outbound where
  | sendFile (grouped_id : Option Nat) (files : List Nat) (caption : String)
  | sendMessage (text : String)
deriving DecidableEq

/-- The shared mutable state: `FORWARD_ENABLED`, `PROCESSED_ALBUM_IDS`,
`PENDING_ALBUMS`. -/
structure BotState where
  forward_enabled : Bool
  processed_album_ids : Nat → Bool
  pending_albums : Nat → Option (List Nat)

/-- Startup state: gate enabled, both containers empty. -/
def initState : BotState :=
  { forward_enabled := true
    processed_album_ids := fun _ => false
    pending_albums := fun _ => none }

/-- The media-collection loop of `album_handler`: media of all non-service
members, in order. -/
def collect_files (ms : List AlbumMember) : List Nat :=
  (ms.filter (fun m => !m.is_service)).filterMap (fun m => m.media)

/-- The caption-collection loop of `album_handler`: the first non-empty
text of a non-service member, else the empty string. -/
def collect_caption : List AlbumMember → String
  | [] => ""
  | m :: rest =>
    if m.is_service then collect_caption rest
    else if m.message ≠ "" then m.message
    else collect_caption rest

/-- `album_handler` from `forwarder.py`.  Returns the new shared state and
the outbound sends performed. -/
def album_handler (rate : Option ℚ) (s : BotState) (gid : Option Nat)
    (ms : List AlbumMember) : BotState × List Outbound :=
  if ms = [] then (s, [])
  else if !s.forward_enabled then (s, [])
  else
    let files := collect_files ms
    let caption := collect_caption ms
    if files = [] then (s, [])
    else
      match gid with
      | some g =>
        if caption = "" then
          ({ s with pending_albums := fun x => if x = g then some files else s.pending_albums x },
           [])
        else if s.processed_album_ids g then (s, [])
        else
          ({ s with processed_album_ids := fun x => if x = g then true else s.processed_album_ids x },
           [.sendFile (some g) files (_convert_prices rate caption)])
      | none => (s, [.sendFile none files (_convert_prices rate caption)])

/-- `album_caption_edited_handler` from `forwarder.py`.  Note the order of
operations in the source: gate check, service check, group check, empty
text check, then `PENDING_ALBUMS.pop(gid, None)` (which removes the entry
whenever it is present), the emptiness check of the popped value, the
`PROCESSED_ALBUM_IDS` check, insertion, and the send. -/
def album_caption_edited_handler (rate : Option ℚ) (s : BotState) (gid : Option Nat)
    (text : String) (svc : Bool) : BotState × List Outbound :=
  if !s.forward_enabled then (s, [])
  else if svc then (s, [])
  else
    match gid with
    | none => (s, [])
    | some g =>
      if text = "" then (s, [])
      else
        match s.pending_albums g with
        | none => (s, [])
        | some fs =>
          let s1 : BotState :=
            { s with pending_albums := fun x => if x = g then none else s.pending_albums x }
          if fs = [] then (s1, [])
          else if s.processed_album_ids g then (s1, [])
          else
            ({ s1 with processed_album_ids := fun x => if x = g then true else s.processed_album_ids x },
             [.sendFile (some g) fs (_convert_prices rate text)])

/-- `forward_handler` from `forwarder.py` (single, non-grouped messages). -/
def forward_handler (rate : Option ℚ) (s : BotState) (gid : Option Nat)
    (text : String) (media : Option Nat) (svc : Bool) : BotState × List Outbound :=
  if svc then (s, [])
  else if gid.isSome then (s, [])
  else if !s.forward_enabled then (s, [])
  else
    let t := _convert_prices rate text
    match media with
    | some m => (s, [.sendFile none [m] t])
    | none => if text ≠ "" then (s, [.sendMessage t]) else (s, [])

/-- Python `str.strip()` (ASCII-whitespace fragment). -/
def pyStrip (l : List Char) : List Char :=
  ((l.dropWhile isSpacePy).reverse.dropWhile isSpacePy).reverse

/-- Python `str.lower()`, restricted to the ASCII letters (the Cyrillic
control tokens are compared as written). -/
def pyLower (c : Char) : Char :=
  if 'A' ≤ c && c ≤ 'Z' then Char.ofNat (c.toNat + 32) else c

/-- `control_handler` from `forwarder.py`: operator `stop`/`start` tokens
in the operator's own outgoing private messages toggle the gate.  The
acknowledgement reply is not an outbound forward and is not modelled as
an `Outbound`. -/
def control_handler (s : BotState) (text : String) (priv is_out : Bool) :
    BotState × List Outbound :=
  if !priv then (s, [])
  else if !is_out then (s, [])
  else
    let t : String := ⟨(pyStrip text.data).map pyLower⟩
    if t = "/stop" || t = "stop" || t = "стоп" then
      if !s.forward_enabled then (s, [])
      else ({ s with forward_enabled := false }, [])
    else if t = "/start" || t = "start" || t = "пуск" then
      if s.forward_enabled then (s, [])
      else ({ s with forward_enabled := true }, [])
    else (s, [])

/-- One handler step on the shared state. -/
def step (rate : Option ℚ) (s : BotState) (e : BotEvent) : BotState × List Outbound :=
  match e with
  | .album gid ms => album_handler rate s gid ms
  | .edited gid txt svc => album_caption_edited_handler rate s gid txt svc
  | .newMessage gid txt media svc => forward_handler rate s gid txt media svc
  | .control txt priv is_out => control_handler s txt priv is_out

/-- Run a finite sequence of handler steps, accumulating outbound sends. -/
def runEvents (rate : Option ℚ) : BotState → List BotEvent → BotState × List Outbound
  | s, [] => (s, [])
  | s, e :: es =>
    let p := step rate s e
    let q := runEvents rate p.1 es
    (q.1, p.2 ++ q.2)

/-- Is this outbound call a `send_file` for album group `g`? -/
def isFileFor (g : Nat) : Outbound → Bool
  | .sendFile (some g') _ _ => g' = g
  | _ => false

/-- Number of `send_file` emissions for group `g` in an outbound list. -/
def countFor (g : Nat) (l : List Outbound) : Nat := (l.filter (isFileFor g)).length

/-- Does the event reference album group `g` (as a batch or edit event)? -/
def refsGroup (g : Nat) : BotEvent → Bool
  | .album (some g') _ => g' = g
  | .edited (some g') _ _ => g' = g
  | _ => false

/-- Is the event an album-batch event for group `g`? -/
def albumEventFor (g : Nat) : BotEvent → Bool
  | .album (some g') _ => g' = g
  | _ => false

/-- De-duplication potential of a group: 1 while the group is still
unprocessed, 0 afterwards. -/
def pot (g : Nat) (s : BotState) : Nat := if s.processed_album_ids g then 0 else 1

@[simp] lemma countFor_nil (g : Nat) : countFor g [] = 0 := rfl

@[simp] lemma countFor_append (g : Nat) (l1 l2 : List Outbound) :
    countFor g (l1 ++ l2) = countFor g l1 + countFor g l2 := by
  simp [countFor, List.filter_append]

@[simp] lemma countFor_file_some (g g' : Nat) (fs : List Nat) (c : String) :
    countFor g [Outbound.sendFile (some g') fs c] = if g' = g then 1 else 0 := by
  by_cases h : g' = g <;> simp [countFor, isFileFor, h]

@[simp] lemma countFor_file_none (g : Nat) (fs : List Nat) (c : String) :
    countFor g [Outbound.sendFile none fs c] = 0 := by
  simp [countFor, isFileFor]

@[simp] lemma countFor_msg (g : Nat) (t : String) :
    countFor g [Outbound.sendMessage t] = 0 := by
  simp [countFor, isFileFor]

/-- One handler step emits for `g` at most as much as it consumes of the
de-duplication potential: every emission site for a group checks
membership in `PROCESSED_ALBUM_IDS` and inserts the group, and no step
ever removes a group from that set. -/
lemma step_pot (rate : Option ℚ) (s : BotState) (e : BotEvent) (g : Nat) :
    countFor g (step rate s e).2 + pot g (step rate s e).1 ≤ pot g s := by
  cases e <;>
    simp only [step, album_handler, album_caption_edited_handler, forward_handler,
      control_handler]
  all_goals repeat' split
  all_goals simp_all [pot]
  all_goals split_ifs
  all_goals simp_all

/-- Trace version of `step_pot`. -/
lemma runEvents_pot (rate : Option ℚ) (g : Nat) (es : List BotEvent) (s : BotState) :
    countFor g (runEvents rate s es).2 + pot g (runEvents rate s es).1 ≤ pot g s := by
  induction es generalizing s with
  | nil => simp [runEvents]
  | cons e es ih =>
    simp only [runEvents, countFor_append]
    have h1 := step_pot rate s e g
    have h2 := ih (step rate s e).1
    omega

@[simp] lemma runEvents_singleton (rate : Option ℚ) (s : BotState) (e : BotEvent) :
    runEvents rate s [e] = ((step rate s e).1, (step rate s e).2) := by
  simp [runEvents]

lemma runEvents_append (rate : Option ℚ) (l1 l2 : List BotEvent) (s : BotState) :
    runEvents rate s (l1 ++ l2) =
      ((runEvents rate (runEvents rate s l1).1 l2).1,
       (runEvents rate s l1).2 ++ (runEvents rate (runEvents rate s l1).1 l2).2) := by
  induction l1 generalizing s with
  | nil => simp [runEvents]
  | cons e l1 ih =>
    simp only [List.cons_append, runEvents, List.append_eq, ih, List.append_assoc]

/-- A step on an event that does not reference group `g` leaves the
`g`-entries of both shared containers unchanged and emits nothing
for `g`. -/
lemma step_frame (rate : Option ℚ) (s : BotState) (e : BotEvent) (g : Nat)
    (h : refsGroup g e = false) :
    (step rate s e).1.pending_albums g = s.pending_albums g ∧
    (step rate s e).1.processed_album_ids g = s.processed_album_ids g ∧
    countFor g (step rate s e).2 = 0 := by
  cases e <;>
    simp only [step, album_handler, album_caption_edited_handler, forward_handler,
      control_handler]
  all_goals simp_all [refsGroup]
  all_goals repeat' split
  all_goals simp_all
  all_goals (intros; omega)

/-- Trace version of `step_frame`. -/
lemma runEvents_frame (rate : Option ℚ) (g : Nat) (es : List BotEvent) (s : BotState)
    (h : ∀ e ∈ es, refsGroup g e = false) :
    (runEvents rate s es).1.pending_albums g = s.pending_albums g ∧
    (runEvents rate s es).1.processed_album_ids g = s.processed_album_ids g ∧
    countFor g (runEvents rate s es).2 = 0 := by
  induction es generalizing s with
  | nil => simp [runEvents]
  | cons e es ih =>
    have he := step_frame rate s e g (h e (List.mem_cons_self e es))
    have ht := ih (step rate s e).1 (fun x hx => h x (List.mem_cons_of_mem e hx))
    simp only [runEvents, countFor_append]
    exact ⟨ht.1.trans he.1, ht.2.1.trans he.2.1, by omega⟩

/-- With the gate enabled, a caption-less batch with media for group `g`
only buffers the collected media under `g` and emits nothing. -/
lemma album_batch_buffers (rate : Option ℚ) (s : BotState) (g : Nat) (ms : List AlbumMember)
    (hgate : s.forward_enabled = true)
    (hfiles : collect_files ms ≠ [])
    (hcap : collect_caption ms = "") :
    step rate s (.album (some g) ms) =
      ({ s with pending_albums := fun x => if x = g then some (collect_files ms) else s.pending_albums x },
       []) := by
  have hms : ms ≠ [] := by
    intro h
    subst h
    exact hfiles rfl
  simp [step, album_handler, hms, hgate, hfiles, hcap]

/-- With the gate enabled, a non-empty caption edit for a buffered,
unprocessed group pops the buffer, records the group as processed, and
emits the buffered media with the rewritten caption. -/
lemma edit_emits (rate : Option ℚ) (s : BotState) (g : Nat) (txt : String) (fs : List Nat)
    (hgate : s.forward_enabled = true)
    (htxt : txt ≠ "")
    (hpend : s.pending_albums g = some fs)
    (hfs : fs ≠ [])
    (hproc : s.processed_album_ids g = false) :
    step rate s (.edited (some g) txt false) =
      ({ forward_enabled := s.forward_enabled,
         processed_album_ids := fun x => if x = g then true else s.processed_album_ids x,
         pending_albums := fun x => if x = g then none else s.pending_albums x },
       [.sendFile (some g) fs (_convert_prices rate txt)]) := by
  simp [step, album_caption_edited_handler, hgate, htxt, hpend, hfs, hproc]

lemma countFor_zero_filter (g : Nat) (l : List Outbound) (h : countFor g l = 0) :
    l.filter (isFileFor g) = [] :=
  List.length_eq_zero.mp h

/-- A group neither buffered nor processed. -/
def cleanFor (g : Nat) (s : BotState) : Prop :=
  s.pending_albums g = none ∧ s.processed_album_ids g = false

/-- The separation invariant at one group: not simultaneously pending and
processed. -/
def sepFor (g : Nat) (s : BotState) : Prop :=
  s.pending_albums g = none ∨ s.processed_album_ids g = false

/-- A step on anything but an album-batch event for `g` either leaves both
`g`-entries unchanged or leaves `g` unbuffered. -/
lemma step_nonbatch (rate : Option ℚ) (s : BotState) (e : BotEvent) (g : Nat)
    (he : albumEventFor g e = false) :
    ((step rate s e).1.pending_albums g = s.pending_albums g ∧
     (step rate s e).1.processed_album_ids g = s.processed_album_ids g) ∨
    (step rate s e).1.pending_albums g = none := by
  cases e <;>
    simp only [step, album_handler, album_caption_edited_handler, forward_handler,
      control_handler]
  all_goals simp_all [albumEventFor]
  all_goals repeat' split
  all_goals simp_all
  all_goals (intros; omega)

/-- A step on anything but an album-batch event for `g`, from a state
where `g` is unbuffered, keeps `g` unbuffered and cannot mark `g`
processed (the edit handler only processes groups it pops from the
pending buffer). -/
lemma step_nonbatch_clean (rate : Option ℚ) (s : BotState) (e : BotEvent) (g : Nat)
    (he : albumEventFor g e = false) (hp : s.pending_albums g = none) :
    (step rate s e).1.pending_albums g = none ∧
    (step rate s e).1.processed_album_ids g = s.processed_album_ids g := by
  cases e <;>
    simp only [step, album_handler, album_caption_edited_handler, forward_handler,
      control_handler]
  all_goals simp_all [albumEventFor]
  all_goals repeat' split
  all_goals simp_all
  all_goals (try (intros; omega))
  all_goals (try (split_ifs <;> simp_all))
  all_goals (intro hgg; subst hgg; simp_all)

/-- The first album-batch event for a clean group establishes the
separation invariant (it buffers or processes, never both). -/
lemma batch_step_sep (rate : Option ℚ) (s : BotState) (g : Nat) (ms : List AlbumMember)
    (hc : cleanFor g s) : sepFor g (step rate s (.album (some g) ms)).1 := by
  obtain ⟨h1, h2⟩ := hc
  simp only [step, album_handler, sepFor]
  repeat' split
  all_goals simp_all

/-- The separation invariant is preserved by any trace free of album-batch
events for `g`. -/
lemma run_sep (rate : Option ℚ) (g : Nat) (es : List BotEvent) (s : BotState)
    (h : ∀ e ∈ es, albumEventFor g e = false) (hs : sepFor g s) :
    sepFor g (runEvents rate s es).1 := by
  induction es generalizing s with
  | nil => exact hs
  | cons e es ih =>
    simp only [runEvents]
    refine ih (step rate s e).1 (fun x hx => h x (List.mem_cons_of_mem e hx)) ?_
    rcases step_nonbatch rate s e g (h e (List.mem_cons_self e es)) with ⟨hp, hq⟩ | hp
    · rw [sepFor, hp, hq]
      exact hs
    · exact Or.inl hp

/-- From a clean group, any trace containing at most one album-batch event
for that group maintains the separation invariant. -/
lemma run_sep_from_clean (rate : Option ℚ) (g : Nat) (es : List BotEvent) (s : BotState)
    (h : (es.filter (albumEventFor g)).length ≤ 1) (hc : cleanFor g s) :
    sepFor g (runEvents rate s es).1 := by
  induction es generalizing s with
  | nil => exact Or.inl hc.1
  | cons e es ih =>
    by_cases hb : albumEventFor g e = true
    · have h0 : ∀ x ∈ es, albumEventFor g x = false := by
        intro x hx
        by_contra hx'
        have hx'' : albumEventFor g x = true := by
          cases hxx : albumEventFor g x
          · exact absurd hxx hx'
          · rfl
        have : 2 ≤ ((e :: es).filter (albumEventFor g)).length := by
          simp only [List.filter, hb]
          have hmem : x ∈ es.filter (albumEventFor g) := List.mem_filter.mpr ⟨hx, hx''⟩
          have := List.length_pos.mpr (List.ne_nil_of_mem hmem)
          simp
          omega
        omega
      obtain ⟨ms, rfl⟩ : ∃ ms, e = BotEvent.album (some g) ms := by
        cases e with
        | album gid ms =>
          cases gid with
          | none => simp [albumEventFor] at hb
          | some g' =>
            simp [albumEventFor] at hb
            exact ⟨ms, by rw [hb]⟩
        | edited gid t svc => simp [albumEventFor] at hb
        | newMessage gid t m svc => simp [albumEventFor] at hb
        | control t p o => simp [albumEventFor] at hb
      simp only [runEvents]
      exact run_sep rate g es _ h0 (batch_step_sep rate s g ms hc)
    · have hb' : albumEventFor g e = false := by
        cases hxx : albumEventFor g e
        · rfl
        · exact absurd hxx hb
      have h' : (es.filter (albumEventFor g)).length ≤ 1 := by
        simp only [List.filter, hb'] at h
        exact h
      simp only [runEvents]
      obtain ⟨hp, hq⟩ := step_nonbatch_clean rate s e g hb' hc.1
      exact ih (step rate s e).1 h' ⟨hp, hq.trans hc.2⟩

/-- C1: for every album group ID `g` and every finite sequence of inbound
events (album batches, caption edits, re-deliveries, single messages,
control commands, in any order), the handlers perform at most one
`send_file` emission for `g`. -/
theorem c1_album_emitted_at_most_once (rate : Option ℚ) (es : List BotEvent) (g : Nat) :
    countFor g (runEvents rate initState es).2 ≤ 1 := by
  have h := runEvents_pot rate g es initState
  have hinit : pot g initState = 1 := rfl
  omega

/-- C2: a caption-less album batch with media for group `g` processed with
the gate enabled, followed (after any events not referencing `g`) by a
non-empty caption edit for `g` processed with the gate enabled, produces
exactly one emission for `g`, carrying the buffered media and the edited
caption after price rewriting. -/
theorem c2_buffered_album_emitted_once_on_edit (rate : Option ℚ) (g : Nat)
    (ms : List AlbumMember) (txt : String) (pre mid : List BotEvent)
    (hpre : ∀ e ∈ pre, refsGroup g e = false)
    (hmid : ∀ e ∈ mid, refsGroup g e = false)
    (hfiles : collect_files ms ≠ [])
    (hcap : collect_caption ms = "")
    (htxt : txt ≠ "")
    (hgate1 : (runEvents rate initState pre).1.forward_enabled = true)
    (hgate2 : (runEvents rate initState
        ((pre ++ [BotEvent.album (some g) ms]) ++ mid)).1.forward_enabled = true) :
    ((runEvents rate initState
        (((pre ++ [BotEvent.album (some g) ms]) ++ mid) ++
          [BotEvent.edited (some g) txt false])).2).filter (isFileFor g)
      = [Outbound.sendFile (some g) (collect_files ms) (_convert_prices rate txt)] := by
  obtain ⟨hp0, hq0, hc0⟩ := runEvents_frame rate g pre initState hpre
  have hb := album_batch_buffers rate (runEvents rate initState pre).1 g ms hgate1 hfiles hcap
  simp only [runEvents_append, runEvents_singleton] at hgate2 ⊢
  rw [hb] at hgate2 ⊢
  obtain ⟨hp2, hq2, hc2⟩ := runEvents_frame rate g mid _ hmid
  have hp2' : (runEvents rate
      { (runEvents rate initState pre).1 with
        pending_albums := fun x =>
          if x = g then some (collect_files ms)
          else (runEvents rate initState pre).1.pending_albums x }
      mid).1.pending_albums g = some (collect_files ms) := by
    rw [hp2]
    simp
  have hq2' : (runEvents rate
      { (runEvents rate initState pre).1 with
        pending_albums := fun x =>
          if x = g then some (collect_files ms)
          else (runEvents rate initState pre).1.pending_albums x }
      mid).1.processed_album_ids g = false := by
    rw [hq2]
    simp
    rw [hq0]
    rfl
  have hed := edit_emits rate _ g txt (collect_files ms) hgate2 htxt hp2' hfiles hq2'
  rw [hed]
  simp only [List.filter_append]
  rw [countFor_zero_filter g _ hc0, countFor_zero_filter g _ hc2]
  simp [isFileFor]

/-- Witness for C2 at a concrete trace (empty context, group 7, one media
item, edited caption "hello"). -/
theorem c2_buffered_album_emitted_once_on_edit_witness :
    ((runEvents none initState
        ((([] ++ [BotEvent.album (some 7) [⟨false, some 3, ""⟩]]) ++ []) ++
          [BotEvent.edited (some 7) "hello" false])).2).filter (isFileFor 7)
      = [Outbound.sendFile (some 7) (collect_files [⟨false, some 3, ""⟩])
          (_convert_prices none "hello")] :=
  c2_buffered_album_emitted_once_on_edit none 7 [⟨false, some 3, ""⟩] "hello" [] []
    (by intro e he; cases he) (by intro e he; cases he)
    (by decide) rfl (by decide) rfl (by decide)

/-- C3 counterexample: a caption-less batch for group 5 arriving while the
gate is disabled is NOT buffered (the pending map still has no entry for
5), and the subsequent re-enable plus caption edit therefore emits
nothing for 5 — contradicting the claim that buffering proceeds while
the gate is disabled and the edit still yields the emission. -/
theorem c3_gate_disabled_batch_not_buffered_counterexample :
    ((runEvents none initState
        [BotEvent.control "stop" true true,
         BotEvent.album (some 5) [⟨false, some 1, ""⟩]]).1.pending_albums 5 = none) ∧
    countFor 5 (runEvents none initState
        [BotEvent.control "stop" true true,
         BotEvent.album (some 5) [⟨false, some 1, ""⟩],
         BotEvent.control "start" true true,
         BotEvent.edited (some 5) "cap" false]).2 = 0 := by
  decide

/-- C3 amended: `album_handler` checks the gate at entry, before any
buffering, so with the gate disabled an album-batch event is a complete
no-op: nothing is buffered, no state changes, nothing is emitted. -/
theorem c3_disabled_gate_suppresses_buffering (rate : Option ℚ) (s : BotState)
    (gid : Option Nat) (ms : List AlbumMember) (h : s.forward_enabled = false) :
    step rate s (.album gid ms) = (s, []) := by
  simp [step, album_handler, h]

/-- Witness for the amended C3 at a concrete disabled-gate state. -/
theorem c3_disabled_gate_suppresses_buffering_witness :
    step none (BotState.mk false (fun _ => false) (fun _ => none))
        (.album (some 1) [⟨false, some 2, ""⟩]) =
      (BotState.mk false (fun _ => false) (fun _ => none), []) :=
  c3_disabled_gate_suppresses_buffering none _ (some 1) [⟨false, some 2, ""⟩] rfl

/-- C4 counterexample: after a captioned batch for group 1 (emitted, so 1
enters the processed set) followed by a caption-less re-delivery for
group 1 (which buffers), group 1 is simultaneously a key of the pending
map and a member of the processed set, in a state reachable from the
initial state. -/
theorem c4_pending_processed_overlap_counterexample :
    ((runEvents none initState
        [BotEvent.album (some 1) [⟨false, some 10, "hi"⟩],
         BotEvent.album (some 1) [⟨false, some 10, ""⟩]]).1.pending_albums 1 ≠ none) ∧
    ((runEvents none initState
        [BotEvent.album (some 1) [⟨false, some 10, "hi"⟩],
         BotEvent.album (some 1) [⟨false, some 10, ""⟩]]).1.processed_album_ids 1 = true) := by
  decide

/-- C4 amended: in every state reachable from the initial state by handler
steps, a group ID referenced by at most one album-batch event of the
trace is never simultaneously a key of the pending-album map and a
member of the processed set (two batch events for the same group — a
re-delivery — can break the invariant, as the counterexample shows). -/
theorem c4_separation_single_batch_per_group (rate : Option ℚ) (es : List BotEvent)
    (g : Nat) (h : (es.filter (albumEventFor g)).length ≤ 1) :
    ¬((runEvents rate initState es).1.pending_albums g ≠ none ∧
      (runEvents rate initState es).1.processed_album_ids g = true) := by
  rintro ⟨hp, hq⟩
  rcases run_sep_from_clean rate g es initState h ⟨rfl, rfl⟩ with h1 | h2
  · exact hp h1
  · rw [hq] at h2
    cases h2

/-- Witness for the amended C4 at a concrete one-batch trace. -/
theorem c4_separation_single_batch_per_group_witness :
    ¬((runEvents none initState
        [BotEvent.album (some 4) [⟨false, some 2, "t"⟩]]).1.pending_albums 4 ≠ none ∧
      (runEvents none initState
        [BotEvent.album (some 4) [⟨false, some 2, "t"⟩]]).1.processed_album_ids 4 = true) :=
  c4_separation_single_batch_per_group none
    [BotEvent.album (some 4) [⟨false, some 2, "t"⟩]] 4 (by decide)

/-- C5: with a present rate, whenever the marker-suffixed conversion pass
(pass 2, run after the normalisation pass 1) changes the text at all,
`_convert_prices` returns that result immediately; the grouped-number
and large-number passes 3 and 4 are not applied. -/
theorem c5_marker_pass_short_circuit (r : ℚ) (text : String)
    (h : pass2 r (pass1 text.data) ≠ pass1 text.data) :
    _convert_prices (some r) text = ⟨pass2 r (pass1 text.data)⟩ := by
  by_cases ht : text = ""
  · subst ht
    exact absurd rfl h
  · simp only [_convert_prices, if_neg ht]
    rw [if_pos h]

/-- Witness for C5 on the spec's own scenario: rate 12000,
"price 400$" — pass 2 fires and its output is returned unchanged by the
later passes. -/
theorem c5_marker_pass_short_circuit_witness :
    _convert_prices (some 12000) "price 400$" = "price 4 800 000 UZS" :=
  (c5_marker_pass_short_circuit 12000 "price 400$" (by decide)).trans (by decide)

/-- C6: rewriting with an absent rate is the identity on every text, and
rewriting the empty text is the identity for every rate. -/
theorem c6_rewrite_identity_laws :
    (∀ t : String, _convert_prices none t = t) ∧
    (∀ rate : Option ℚ, _convert_prices rate "" = "") := by
  constructor
  · intro t
    unfold _convert_prices
    split <;> rfl
  · intro rate
    unfold _convert_prices
    rw [if_pos rfl]

/-- C7: with rate 12000, "budget 150 000, +5000 bonus" rewrites to
"budget 1 800 000 000 UZS, +5000 bonus": the grouped literal "150 000"
is parsed as 150000, multiplied to 1 800 000 000, rendered space-grouped
with the UZS suffix, while "+5000" is protected by the leading-plus
guard. -/
theorem c7_grouped_number_scenario :
    _convert_prices (some 12000) "budget 150 000, +5000 bonus" =
      "budget 1 800 000 000 UZS, +5000 bonus" := by
  decide

/-- C8: a single rate refresh returns (a total function — no exception
escapes; every failure path in the source is a caught exception or an
early return) keeping the previous rate on a transport error, a non-200
status, or a missing or non-numeric quote field; the rate changes only
on a fully successful fetch and parse, to the fetched value. -/
theorem c8_refresh_failure_keeps_rate (rate : Option ℚ) (f : FetchOutcome) :
    (isErrorOutcome f = true → _update_usd_rate_once rate f = rate) ∧
    (_update_usd_rate_once rate f ≠ rate →
      ∃ v, f = .success 200 (some (some v)) ∧ _update_usd_rate_once rate f = some v) := by
  cases f with
  | failure => simp [_update_usd_rate_once]
  | success st q =>
    by_cases hst : st = 200
    · subst hst
      match q with
      | none => simp [_update_usd_rate_once, isErrorOutcome]
      | some none => simp [_update_usd_rate_once, isErrorOutcome]
      | some (some v) => simp [_update_usd_rate_once, isErrorOutcome]
    · simp [_update_usd_rate_once, isErrorOutcome, hst]

/-- Witness for C8: an HTTP 500 response leaves a stored rate of 5
untouched. -/
theorem c8_refresh_failure_keeps_rate_witness :
    isErrorOutcome (FetchOutcome.success 500 (some (some 12000))) = true ∧
    _update_usd_rate_once (some 5) (FetchOutcome.success 500 (some (some 12000))) = some 5 :=
  ⟨by decide,
   (c8_refresh_failure_keeps_rate (some 5) (FetchOutcome.success 500 (some (some 12000)))).1
     (by decide)⟩

/-- C9 counterexample: a caption-less duplicate batch for a group already
in the processed set DOES change shared state — it re-buffers its media
into the pending map (the caption-less branch of `album_handler` runs
before the processed-set check) — contradicting "no shared state
changes, regardless of whether the duplicate batch carries a caption". -/
theorem c9_duplicate_batch_state_change_counterexample :
    ((runEvents none initState
        [BotEvent.album (some 3) [⟨false, some 9, "hi"⟩]]).1.processed_album_ids 3 = true) ∧
    (step none (runEvents none initState
          [BotEvent.album (some 3) [⟨false, some 9, "hi"⟩]]).1
        (BotEvent.album (some 3) [⟨false, some 9, ""⟩])).1.pending_albums 3 ≠
      (runEvents none initState
          [BotEvent.album (some 3) [⟨false, some 9, "hi"⟩]]).1.pending_albums 3 := by
  decide

/-- C9 amended: an album-batch event for a group already in the processed
set never emits; if the duplicate carries a non-empty caption candidate
it is fully ignored with no state change, but a caption-less duplicate
with media re-buffers the media into the pending-album map. -/
theorem c9_duplicate_batch_never_emits (rate : Option ℚ) (s : BotState) (g : Nat)
    (ms : List AlbumMember) (h : s.processed_album_ids g = true) :
    (step rate s (.album (some g) ms)).2 = [] ∧
    (collect_caption ms ≠ "" → step rate s (.album (some g) ms) = (s, [])) := by
  simp only [step, album_handler]
  repeat' split
  all_goals simp_all

/-- Witness for the amended C9 at a concrete processed group. -/
theorem c9_duplicate_batch_never_emits_witness :
    (step none (BotState.mk true (fun x => decide (x = 3)) (fun _ => none))
        (.album (some 3) [⟨false, some 9, "x"⟩])).2 = [] ∧
    (collect_caption [⟨false, some 9, "x"⟩] ≠ "" →
      step none (BotState.mk true (fun x => decide (x = 3)) (fun _ => none))
          (.album (some 3) [⟨false, some 9, "x"⟩]) =
        (BotState.mk true (fun x => decide (x = 3)) (fun _ => none), [])) :=
  c9_duplicate_batch_never_emits none _ 3 [⟨false, some 9, "x"⟩] (by decide)

/-- C10: a caption-edit event processed while the gate is disabled is a
complete no-op — the handler returns before the pending-album pop, so
the buffered entry is not consumed, the processed set is unchanged, and
nothing is emitted. -/
theorem c10_disabled_gate_edit_is_noop (rate : Option ℚ) (s : BotState) (gid : Option Nat)
    (txt : String) (svc : Bool) (h : s.forward_enabled = false) :
    step rate s (.edited gid txt svc) = (s, []) := by
  simp [step, album_caption_edited_handler, h]

/-- Witness for C10 at a concrete disabled-gate state with a buffered
album. -/
theorem c10_disabled_gate_edit_is_noop_witness :
    step none (BotState.mk false (fun _ => false) (fun x => if x = 1 then some [5] else none))
        (.edited (some 1) "cap" false) =
      (BotState.mk false (fun _ => false) (fun x => if x = 1 then some [5] else none), []) :=
  c10_disabled_gate_edit_is_noop none _ (some 1) "cap" false rfl

end Forwarder
